import Mathlib

/-!
Verification of the FastChat Cacheflow model worker
(`fastchat/serve/cacheflow_worker.py`).

The file shallowly embeds the worker's request-lifecycle and
concurrency-control layer: request-parameter processing (clamping and
prompt truncation), the stop-string stripping applied to decoded text,
the OOM error gate around the streaming generator, the heartbeat retry
loop, queue-length/status reporting, the admission-semaphore life cycle
of the `/worker_generate_stream` endpoint, the tracked-groups table
with the engine-step fan-out, and the generation polling loop.
Text is modelled as `List Char`, Python ints as `Int`, dictionaries as
association lists, and the external engine/tokenizer as parameters.
-/

/-! Section: Python primitives used by the worker -/

/-- Python list/str slice `xs[i:]` for an arbitrary (possibly negative)
integer start index `i`: a negative start counts from the end and is
clamped at 0; a nonnegative start is clamped at the length. -/
def pySliceFrom {α : Type} (xs : List α) (i : Int) : List α :=
  if i < 0 then xs.drop (xs.length - (-i).toNat)
  else xs.drop i.toNat

/-- Python str slice `s[:-n]` where `n : Nat` is the length of a string
(so that the written index is `-n`): for `n = 0` the slice is `s[:0] = ""`
because Python evaluates `-0` to `0`; for `n > 0` it removes the last `n`
characters (empty if `n ≥ len`). -/
def pySliceToNeg {α : Type} (s : List α) (n : Nat) : List α :=
  if n = 0 then [] else s.take (s.length - n)

/-- Python `s.endswith(suffix)`. -/
def pyEndswith (s suf : List Char) : Bool :=
  decide (suf.length ≤ s.length) && decide (s.drop (s.length - suf.length) = suf)

/-! Section: request-parameter processing (`CacheFlowWorker.generate_stream`, lines 199-214)

`max_new_tokens = min(int(params.get("max_new_tokens", 256)), 1024)`
`max_src_len = self.context_len - max_new_tokens - 8`
`input_ids = input_ids[-max_src_len:]`
`sampling_params.max_num_steps = max_new_tokens` -/

/-- Source field `self.context_len`, hard-coded to 2048 in `CacheFlowWorker.__init__`. -/
def context_len : Nat := 2048

/-- Clamping `min(int(params.get("max_new_tokens", 256)), 1024)`: the requested
`max_new_tokens` (default 256 when absent) clamped at 1024. -/
def clampedMaxNewTokens (requested : Option Int) : Int :=
  min (requested.getD 256) 1024

/-- The value stored in `sampling_params.max_num_steps` and submitted to
the engine: exactly the clamped `max_new_tokens`. -/
def submittedMaxNumSteps (requested : Option Int) : Int :=
  clampedMaxNewTokens requested

/-- Budget `max_src_len = self.context_len - max_new_tokens - 8`. -/
def maxSrcLen (requested : Option Int) : Int :=
  (context_len : Int) - clampedMaxNewTokens requested - 8

/-- Truncation `input_ids = input_ids[-max_src_len:]`: the prompt tokens actually
submitted to the engine. -/
def truncatedInputIds (input_ids : List Nat) (requested : Option Int) : List Nat :=
  pySliceFrom input_ids (-(maxSrcLen requested))

/-! Section: stop-string stripping (`generate_stream`, lines 240-244)

```
output = self.tokenizer.decode(token_ids, skip_special_tokens=True)
if stop_str is not None:
    if output.endswith(stop_str):
        output = output[:-len(stop_str)]
```
-/

/-- The text emitted for one sequence, given the decoded token history
`decoded` and the configured literal stop string. -/
def emittedText (decoded : List Char) (stop_str : Option (List Char)) : List Char :=
  match stop_str with
  | none => decoded
  | some stop =>
      if pyEndswith decoded stop then pySliceToNeg decoded stop.length
      else decoded

/-! Section: streamed chunks and the OOM gate
(`generate_stream` lines 246-250, `generate_stream_gate` lines 307-316) -/

/-- One streamed chunk: the dictionary `{"text": ..., "error_code": ...}`
built by `generate_stream` / `generate_stream_gate`. -/
structure Chunk where
  text : List Char
  error_code : Nat
deriving DecidableEq, Repr

/-- Modelled from the spec: `server_error_msg`, the generic server error
message imported from `fastchat.utils` (that module is not part of the
sources at hand; the claims depend only on it being one fixed message). -/
def server_error_msg : List Char :=
  "**NETWORK ERROR DUE TO HIGH TRAFFIC. PLEASE REGENERATE OR REFRESH THIS PAGE.**".data

/-- The NUL framing byte appended after each JSON-encoded chunk. -/
def nulByte : Char := Char.ofNat 0

/-- Framing `(json.dumps(ret) + "\0").encode("utf-8")` (and
`json.dumps(ret).encode() + b"\0"` in the gate):
one yielded wire item, given the JSON encoder `dumps` (the external
`json.dumps`, which never produces a NUL character because it escapes
control characters). -/
def yieldFramed (dumps : Chunk → List Char) (c : Chunk) : List Char :=
  dumps c ++ [nulByte]

/-- How a run of the generator `generate_stream` ends, as observed by
`generate_stream_gate`: either it finishes normally after yielding
`chunks`, or `torch.cuda.OutOfMemoryError` is raised after `chunks`
were yielded. -/
inductive GenOutcome where
  | finishedS (chunks : List Chunk)
  | oomAfter (chunks : List Chunk)
deriving DecidableEq

/-- Embedding of `generate_stream_gate` at chunk granularity: re-yield every chunk of
`generate_stream`; on `torch.cuda.OutOfMemoryError` yield the single
chunk `{"text": server_error_msg, "error_code": 1}` and stop. -/
def gateChunks : GenOutcome → List Chunk
  | .finishedS cs => cs
  | .oomAfter cs => cs ++ [⟨server_error_msg, 1⟩]

/-- Embedding of `generate_stream_gate` at wire granularity: each chunk is
JSON-encoded and followed by a single NUL byte. -/
def gateWire (dumps : Chunk → List Char) (o : GenOutcome) : List (List Char) :=
  (gateChunks o).map (yieldFramed dumps)

/-! Section: heartbeat (`heart_beat_worker` lines 36-40,
`CacheFlowWorker.send_heart_beat` lines 147-166)

The POST to `{controller}/receive_heart_beat` is external; one attempt is
modelled as `Option Bool`: `none` is a raised
`requests.exceptions.RequestException`, `some exist` is a successful POST
whose parsed JSON carries the given `exist` field. A whole run of the
loop consumes a stream `outcomes : Nat → Option Bool` of attempt results.
The unbounded `while True` retry loop is embedded with explicit fuel. -/

/-- Retry loop of `send_heart_beat`: POST; on success `break` with the
parsed `exist`; on `RequestException` log, `time.sleep(5)`, retry.
Returns `some (exist, k)` when the loop exits after `k` failed attempts
(each followed by one fixed 5-second backoff), or `none` when all `fuel`
attempts failed and the loop is still retrying. -/
def send_heart_beat_loop : (Nat → Option Bool) → Nat → Option (Bool × Nat)
  | _, 0 => none
  | outcomes, fuel + 1 =>
      match outcomes 0 with
      | some exist => some (exist, 0)
      | none =>
          (send_heart_beat_loop (fun n => outcomes (n + 1)) fuel).map
            (fun p => (p.1, p.2 + 1))

/-- Observable accounting of one `send_heart_beat` call. -/
structure HeartBeatResult where
  exist : Option Bool
  sleeps : Nat
  registrations : Nat
deriving DecidableEq, Repr

/-- Embedding of `CacheFlowWorker.send_heart_beat`: run the retry loop;
once it exits, call `register_to_controller()` exactly once if the
controller answered `exist = false`, and not at all otherwise. When the
loop has not yet succeeded (`exist = none`), the call has not returned:
`sleeps` counts the backoffs so far and no registration has happened. -/
def send_heart_beat (outcomes : Nat → Option Bool) (fuel : Nat) : HeartBeatResult :=
  match send_heart_beat_loop outcomes fuel with
  | none => ⟨none, fuel, 0⟩
  | some (exist, k) => ⟨some exist, k, if exist then 0 else 1⟩

/-! Section: queue length and status reporting
(`get_queue_length` / `get_status`, lines 168-180) -/

/-- Internals of the `asyncio.Semaphore` read by `get_queue_length`:
`_value` (available slots) and `len(_waiters)` (queued acquirers). -/
structure AsyncSemaphore where
  value : Nat
  waiters : Nat
deriving DecidableEq, Repr

/-- Process-wide state read by `get_queue_length`: the module-level
global `model_semaphore` (initially `None`) together with
`args.limit_model_concurrency`. -/
structure WorkerGlobals where
  limit_model_concurrency : Int
  model_semaphore : Option AsyncSemaphore
deriving DecidableEq, Repr

/-- Embedding of `CacheFlowWorker.get_queue_length`, in state-passing
style so that absence of side effects is part of the statement:
`0` when `model_semaphore is None`, else
`args.limit_model_concurrency - model_semaphore._value + len(model_semaphore._waiters)`. -/
def get_queue_length (g : WorkerGlobals) : Int × WorkerGlobals :=
  match g.model_semaphore with
  | none => (0, g)
  | some sem =>
      (g.limit_model_concurrency - (sem.value : Int) + (sem.waiters : Int), g)

/-- The status dictionary returned by `get_status`. -/
structure WorkerStatus where
  model_names : List (List Char)
  speed : Nat
  queue_length : Int
deriving DecidableEq, Repr

/-- Embedding of `CacheFlowWorker.get_status`, state-passing like
`get_queue_length`. -/
def get_status (model_name : List Char) (g : WorkerGlobals) :
    WorkerStatus × WorkerGlobals :=
  (⟨[model_name], 1, (get_queue_length g).1⟩, (get_queue_length g).2)

/-! Section: admission slots at the `/worker_generate_stream` endpoint
(`release_model_semaphore` lines 322-323, endpoint lines 326-338) -/

/-- Admission-slot state: the semaphore value plus ghost counters of the
acquires and releases performed, used to state slot conservation. -/
structure AdmissionState where
  semValue : Nat
  acquires : Nat
  releases : Nat
deriving DecidableEq, Repr

/-- Embedding of `release_model_semaphore`: `model_semaphore.release()`. -/
def release_model_semaphore (s : AdmissionState) : AdmissionState :=
  { s with semValue := s.semValue + 1, releases := s.releases + 1 }

/-- Background tasks that can be attached to a response. -/
inductive BackgroundTask where
  | releaseModelSemaphore
deriving DecidableEq, Repr

/-- Running one background task against the admission state. -/
def runBackgroundTask : BackgroundTask → AdmissionState → AdmissionState
  | .releaseModelSemaphore, s => release_model_semaphore s

/-- Embedding of the `/worker_generate_stream` endpoint body on the path
where `await model_semaphore.acquire()` returns: the acquire decrements
the semaphore, and `background_tasks.add_task(release_model_semaphore)`
attaches exactly one release task to the `StreamingResponse`. -/
def generate_stream_endpoint (s : AdmissionState) :
    AdmissionState × List BackgroundTask :=
  ({ s with semValue := s.semValue - 1, acquires := s.acquires + 1 },
   [BackgroundTask.releaseModelSemaphore])

/-- The ways a generation session can end. -/
inductive SessionExit where
  | finished
  | errorChunkEmitted
  | clientDisconnected
deriving DecidableEq, Repr

/-- Modelled from the spec: the HTTP framework (`StreamingResponse` with
`background=background_tasks`, external to this repository) runs the
response's background tasks exactly once when the session ends, on every
exit path — finished stream, error chunk emitted, or client disconnect. -/
def endSession (_e : SessionExit) (tasks : List BackgroundTask)
    (s : AdmissionState) : AdmissionState :=
  tasks.foldl (fun st t => runBackgroundTask t st) s

/-! Section: tracked groups and the generation polling loop
(`running_seq_groups` line 125, `server_step` lines 182-188,
`generate_stream` loop lines 230-252) -/

/-- The worker's view of one engine `SequenceGroup`: its `group_id`, the
token ids of its single sequence (the worker submits `n = 1` and asserts
`len(seq_group.seqs) == 1`), and the value of `is_finished()`. -/
structure SeqGroup where
  group_id : Nat
  token_ids : List Nat
  finished : Bool
deriving DecidableEq, Repr

/-- Dict lookup `self.running_seq_groups[group_id]` on the tracked-groups
table, embedded as an association list; `none` models a raised
`KeyError`. -/
def tableLookup (t : List (Nat × SeqGroup)) (gid : Nat) : Option SeqGroup :=
  match t with
  | [] => none
  | (k, g) :: rest => if k = gid then some g else tableLookup rest gid

/-- Dict assignment `self.running_seq_groups[group_id] = seq_group`:
replace the entry at the key, or add it. -/
def tableSet (t : List (Nat × SeqGroup)) (gid : Nat) (g : SeqGroup) :
    List (Nat × SeqGroup) :=
  match t with
  | [] => [(gid, g)]
  | (k, g0) :: rest =>
      if k = gid then (k, g) :: rest else (k, g0) :: tableSet rest gid g

/-- Fan-out of `server_step` (lines 186-188): each group updated by
`self.server.step()` replaces the table entry at its group id. -/
def server_step_fanout (t : List (Nat × SeqGroup)) (updated : List SeqGroup) :
    List (Nat × SeqGroup) :=
  updated.foldl (fun acc g => tableSet acc g.group_id g) t

/-- How a run of the polling loop of `generate_stream` ends against a
finite script of engine steps: the session observed `is_finished()` and
broke out; the dict lookup raised `KeyError`; or the script ran out with
the loop still going. Each constructor carries the chunks yielded so far
and the tracked-groups table as the loop left it. -/
inductive LoopResult where
  | finishedAt (chunks : List Chunk) (table : List (Nat × SeqGroup))
  | keyError (chunks : List Chunk) (table : List (Nat × SeqGroup))
  | outOfScript (chunks : List Chunk) (table : List (Nat × SeqGroup))
deriving DecidableEq, Repr

/-- Chunks carried by a `LoopResult`. -/
def LoopResult.chunks : LoopResult → List Chunk
  | .finishedAt cs _ => cs
  | .keyError cs _ => cs
  | .outOfScript cs _ => cs

/-- Tracked-groups table carried by a `LoopResult`. -/
def LoopResult.table : LoopResult → List (Nat × SeqGroup)
  | .finishedAt _ t => t
  | .keyError _ t => t
  | .outOfScript _ t => t

/-- Embedding of the `while True` polling loop of `generate_stream`
(lines 231-252) for one session driving the engine alone: each iteration
triggers `server_step()` (fanning out one scripted step's updates into
the table), then reads `self.running_seq_groups[group_id]` — an
unguarded dict lookup — decodes the sequence's token history via the
external `decode`, applies the stop-string strip, yields one chunk with
`error_code 0`, and breaks when the group `is_finished()`. Nothing
removes the table entry on exit. -/
def generation_loop (decode : List Nat → List Char) (stop : Option (List Char))
    (gid : Nat) : List (List SeqGroup) → List (Nat × SeqGroup) → LoopResult
  | [], t => .outOfScript [] t
  | upd :: rest, t =>
      match tableLookup (server_step_fanout t upd) gid with
      | none => .keyError [] (server_step_fanout t upd)
      | some g =>
          if g.finished then
            .finishedAt [⟨emittedText (decode g.token_ids) stop, 0⟩]
              (server_step_fanout t upd)
          else
            match generation_loop decode stop gid rest (server_step_fanout t upd) with
            | .finishedAt cs t2 =>
                .finishedAt (⟨emittedText (decode g.token_ids) stop, 0⟩ :: cs) t2
            | .keyError cs t2 =>
                .keyError (⟨emittedText (decode g.token_ids) stop, 0⟩ :: cs) t2
            | .outOfScript cs t2 =>
                .outOfScript (⟨emittedText (decode g.token_ids) stop, 0⟩ :: cs) t2

/-! Section: single-flight stepping (`is_server_running` line 127,
`server_step` lines 182-185, loop head lines 231-233)

Two concurrently running generation sessions are modelled as two threads
executing the step-trigger code of the polling loop,
`if not self.is_server_running: self.server_step()`, against shared
driver state. `server_step` sets `self.is_server_running = True`, calls
`self.server.step()`, then resets the flag. The flag check and the flag
set are separate atomic actions, as in the source, where the check in
`generate_stream` and the assignment inside `server_step` are distinct
statements. `stepsExecuting` counts `self.server.step()` calls currently
in flight. -/

/-- Shared driver state of the two sessions. -/
structure DriverState where
  is_server_running : Bool
  stepsExecuting : Nat
  stepsStarted : Nat
deriving DecidableEq, Repr

/-- Program counter of one session's step trigger: about to check the
flag; past the check and about to set the flag and enter
`self.server.step()`; inside `self.server.step()`; or past the trigger,
reading the tracked-groups table. -/
inductive SessionPc where
  | atCheck
  | atEnter
  | inStep
  | done
deriving DecidableEq, Repr

/-- One atomic action of one session at its program counter. -/
def sessionAction (d : DriverState) (pc : SessionPc) : DriverState × SessionPc :=
  match pc with
  | .atCheck => (d, if d.is_server_running then .done else .atEnter)
  | .atEnter =>
      ({ d with is_server_running := true,
                stepsExecuting := d.stepsExecuting + 1,
                stepsStarted := d.stepsStarted + 1 }, .inStep)
  | .inStep =>
      ({ d with is_server_running := false,
                stepsExecuting := d.stepsExecuting - 1 }, .done)
  | .done => (d, .done)

/-- Global state: the shared driver state and both sessions' counters. -/
structure TwoSessions where
  driver : DriverState
  pc0 : SessionPc
  pc1 : SessionPc
deriving DecidableEq, Repr

/-- Session 0 performs one atomic action. -/
def stepSession0 (s : TwoSessions) : TwoSessions :=
  { s with driver := (sessionAction s.driver s.pc0).1,
           pc0 := (sessionAction s.driver s.pc0).2 }

/-- Session 1 performs one atomic action. -/
def stepSession1 (s : TwoSessions) : TwoSessions :=
  { s with driver := (sessionAction s.driver s.pc1).1,
           pc1 := (sessionAction s.driver s.pc1).2 }

/-- Run an interleaving: each list entry names the session scheduled for
one atomic action (`false` = session 0, `true` = session 1). -/
def schedule : List Bool → TwoSessions → TwoSessions
  | [], s => s
  | tid :: rest, s =>
      schedule rest (if tid then stepSession1 s else stepSession0 s)

/-- Initial state: flag clear, no step executing, both sessions at the
flag check. -/
def initTwoSessions : TwoSessions := ⟨⟨false, 0, 0⟩, .atCheck, .atCheck⟩

/-- Invariant for runs in which only session 0 is ever scheduled:
session 1 sits at its check, and the flag and the in-flight step count
exactly mirror whether session 0 is inside `self.server.step()`. -/
def seqInv (s : TwoSessions) : Prop :=
  s.pc1 = SessionPc.atCheck ∧
  ((s.pc0 = SessionPc.inStep ∧ s.driver.stepsExecuting = 1 ∧
      s.driver.is_server_running = true) ∨
   (s.pc0 ≠ SessionPc.inStep ∧ s.driver.stepsExecuting = 0 ∧
      s.driver.is_server_running = false))

/-! Section: theorems -/

/-- Slicing `xs[-m:]` for `m > 0` keeps the last `min m (length xs)` elements. -/
theorem pySliceFrom_neg (xs : List Nat) (m : Int) (hm : 0 < m) :
    pySliceFrom xs (-m) = xs.drop (xs.length - m.toNat) := by
  unfold pySliceFrom
  rw [if_pos (by omega)]
  simp

/-- C3: the value submitted to the engine as `max_num_steps` is
`min(requested max_new_tokens, 1024)`, hence at most 1024, regardless of
how large a value the client requests. -/
theorem max_num_steps_clamped (r : Int) :
    submittedMaxNumSteps (some r) = min r 1024 ∧
    submittedMaxNumSteps (some r) ≤ 1024 := by
  constructor
  · rfl
  · exact min_le_right r 1024

/-- The prompt-token budget is always at least 1016, because
`max_new_tokens` is clamped at 1024 before the budget is computed. -/
theorem maxSrcLen_ge (requested : Option Int) : 1016 ≤ maxSrcLen requested := by
  unfold maxSrcLen clampedMaxNewTokens context_len
  have h := min_le_right (requested.getD 256) (1024 : Int)
  omega

/-- C4 (amended): the encoded prompt is truncated from the left to at most
`contextLength - clampedMaxNewTokens - 8` tokens, where
`clampedMaxNewTokens = min(requested, 1024)`; a prompt within the budget
is unchanged, and a longer one keeps exactly its most recent
budget-many tokens (the result is a suffix of the prompt). -/
theorem prompt_truncation (ids : List Nat) (r : Option Int) :
    ((ids.length ≤ (maxSrcLen r).toNat → truncatedInputIds ids r = ids) ∧
     ((maxSrcLen r).toNat < ids.length →
        truncatedInputIds ids r = ids.drop (ids.length - (maxSrcLen r).toNat) ∧
        (truncatedInputIds ids r).length = (maxSrcLen r).toNat)) ∧
    ∃ pre, pre ++ truncatedInputIds ids r = ids := by
  have hb : 0 < maxSrcLen r := lt_of_lt_of_le (by norm_num) (maxSrcLen_ge r)
  have hdrop : truncatedInputIds ids r = ids.drop (ids.length - (maxSrcLen r).toNat) :=
    pySliceFrom_neg ids (maxSrcLen r) hb
  refine ⟨⟨?_, ?_⟩, ?_⟩
  · intro hle
    rw [hdrop]
    have : ids.length - (maxSrcLen r).toNat = 0 := by omega
    rw [this, List.drop_zero]
  · intro hlt
    refine ⟨hdrop, ?_⟩
    rw [hdrop, List.length_drop]
    omega
  · exact ⟨ids.take (ids.length - (maxSrcLen r).toNat), by
      rw [hdrop]; exact List.take_append_drop _ ids⟩

/-- Witness for `prompt_truncation`: with `contextLength = 2048` and a
requested `max_new_tokens` of 2000 (clamped to 1024, budget 1016), a
50-token prompt is left unchanged. -/
theorem prompt_truncation_witness :
    (List.range 50).length ≤ (maxSrcLen (some 2000)).toNat ∧
    truncatedInputIds (List.range 50) (some 2000) = List.range 50 :=
  ⟨by decide, (prompt_truncation (List.range 50) (some 2000)).1.1 (by decide)⟩

/-- C4 counterexample: the claim's example fails on the code. With
`contextLength = 2048` and requested `maxNewTokens = 2000`, a 50-token
prompt is NOT truncated to its last 40 tokens: because `max_new_tokens`
is clamped to 1024 before the budget is computed, the budget is
`2048 - 1024 - 8 = 1016` and the prompt is left unchanged (length 50,
not 40). -/
theorem prompt_truncation_counterexample :
    truncatedInputIds (List.range 50) (some 2000) = List.range 50 ∧
    (truncatedInputIds (List.range 50) (some 2000)).length = 50 ∧
    ¬ (truncatedInputIds (List.range 50) (some 2000)).length = 40 := by
  refine ⟨by decide, by decide, by decide⟩

/-- The empty list is what `pyEndswith` reports as a suffix of anything. -/
theorem pyEndswith_nil (decoded : List Char) : pyEndswith decoded [] = true := by
  unfold pyEndswith
  simp

/-- C5 (amended): for every non-empty configured stop string, if the
decoded text ends with it then exactly the single trailing occurrence is
stripped before emitting (the emitted text followed by the stop string
reconstitutes the decoded text), and text not ending with the stop
string is emitted unchanged; for the EMPTY stop string, however, the
emitted text is the empty string (Python `output[:-len(stop)]` with
`len(stop) = 0` is `output[:0]`), not the unchanged text. -/
theorem stop_string_stripping (decoded stop : List Char) :
    (stop ≠ [] → pyEndswith decoded stop = true →
       emittedText decoded (some stop) ++ stop = decoded ∧
       emittedText decoded (some stop) =
         decoded.take (decoded.length - stop.length)) ∧
    (pyEndswith decoded stop = false → emittedText decoded (some stop) = decoded) ∧
    (stop = [] → emittedText decoded (some stop) = []) := by
  refine ⟨?_, ?_, ?_⟩
  · intro hne hends
    have h' := hends
    simp only [pyEndswith, Bool.and_eq_true, decide_eq_true_eq] at h'
    have hdropEq : decoded.drop (decoded.length - stop.length) = stop := h'.2
    have hslice : emittedText decoded (some stop) =
        decoded.take (decoded.length - stop.length) := by
      simp only [emittedText, hends, if_true]
      unfold pySliceToNeg
      rw [if_neg (by simpa using hne)]
    refine ⟨?_, hslice⟩
    rw [hslice]
    conv_rhs => rw [← List.take_append_drop (decoded.length - stop.length) decoded]
    rw [hdropEq]
  · intro hfalse
    simp [emittedText, hfalse]
  · intro hnil
    subst hnil
    simp [emittedText, pyEndswith_nil, pySliceToNeg]

/-- Witness for `stop_string_stripping`: with stop string `"STOP"`, the
decoded string `"hello worldSTOP"` is emitted as `"hello world"`. -/
theorem stop_string_stripping_witness :
    emittedText "hello worldSTOP".data (some "STOP".data) ++ "STOP".data =
      "hello worldSTOP".data :=
  ((stop_string_stripping "hello worldSTOP".data "STOP".data).1
    (by decide) (by decide)).1

/-- C5 counterexample: the claim fails for the empty stop string. The
decoded text `"hello"` ends with the empty stop string, and stripping the
(empty) trailing occurrence should leave `"hello"` unchanged, but the
code emits the empty string: `output[:-0]` is `output[:0]`. -/
theorem stop_string_empty_counterexample :
    pyEndswith "hello".data [] = true ∧
    emittedText "hello".data (some []) = [] ∧
    ¬ emittedText "hello".data (some []) = "hello".data := by
  refine ⟨by decide, by decide, by decide⟩

/-- C6: if `torch.cuda.OutOfMemoryError` is raised during the stream,
the gate emits exactly one final error chunk
`{"text": server_error_msg, "error_code": 1}` after the already-yielded
chunks and terminates (no retry, no resubmission); chunks of the
non-error path all carry `error_code 0`; on the wire the error chunk is
the JSON encoding followed by a single NUL byte. -/
theorem oom_single_error_chunk (cs : List Chunk) (dumps : Chunk → List Char)
    (h0 : ∀ c ∈ cs, c.error_code = 0)
    (hdumps : ∀ c, nulByte ∉ dumps c) :
    gateChunks (.oomAfter cs) = cs ++ [⟨server_error_msg, 1⟩] ∧
    (gateChunks (.oomAfter cs)).filter (fun c => c.error_code != 0) =
      [⟨server_error_msg, 1⟩] ∧
    (gateChunks (.oomAfter cs)).getLast? = some ⟨server_error_msg, 1⟩ ∧
    (∀ c ∈ gateChunks (.finishedS cs), c.error_code = 0) ∧
    gateWire dumps (.oomAfter cs) =
      cs.map (yieldFramed dumps) ++ [yieldFramed dumps ⟨server_error_msg, 1⟩] ∧
    (yieldFramed dumps ⟨server_error_msg, 1⟩).count nulByte = 1 ∧
    (yieldFramed dumps ⟨server_error_msg, 1⟩).getLast? = some nulByte := by
  refine ⟨rfl, ?_, ?_, ?_, ?_, ?_, ?_⟩
  · show (cs ++ [(⟨server_error_msg, 1⟩ : Chunk)]).filter _ = _
    rw [List.filter_append]
    have hnil : cs.filter (fun c => c.error_code != 0) = [] := by
      apply List.filter_eq_nil_iff.mpr
      intro c hc
      simp [h0 c hc]
    rw [hnil]
    rfl
  · show (cs ++ [(⟨server_error_msg, 1⟩ : Chunk)]).getLast? = _
    exact List.getLast?_concat cs
  · exact h0
  · show ((cs ++ [(⟨server_error_msg, 1⟩ : Chunk)]).map _) = _
    rw [List.map_append]
    rfl
  · unfold yieldFramed
    rw [List.count_append]
    rw [List.count_eq_zero.mpr (hdumps _)]
    rfl
  · unfold yieldFramed
    exact List.getLast?_concat _

/-- Witness for `oom_single_error_chunk`: one ordinary chunk followed by
an OOM produces exactly that chunk and then the single error chunk. -/
theorem oom_single_error_chunk_witness :
    gateChunks (.oomAfter [⟨['h'], 0⟩]) =
      [⟨['h'], 0⟩] ++ [⟨server_error_msg, 1⟩] :=
  (oom_single_error_chunk [⟨['h'], 0⟩] (fun _ => ['x'])
    (by decide) (by intro c; show nulByte ∉ ['x']; decide)).1

/-- If every attempt fails, the retry loop is still running after any
number of attempts: it never exits without a successful POST. -/
theorem send_heart_beat_loop_all_fail :
    ∀ (fuel : Nat) (outcomes : Nat → Option Bool),
    (∀ m, outcomes m = none) → send_heart_beat_loop outcomes fuel = none := by
  intro fuel
  induction fuel with
  | zero => intro outcomes _; rfl
  | succ f ih =>
      intro outcomes hfail
      simp only [send_heart_beat_loop, hfail 0]
      rw [ih (fun n => outcomes (n + 1)) (fun m => hfail (m + 1))]
      rfl

/-- If the first successful attempt is attempt `n`, the retry loop exits
there, having slept once after each of the `n` failures. -/
theorem send_heart_beat_loop_first_success (n : Nat) :
    ∀ (outcomes : Nat → Option Bool) (e : Bool) (fuel : Nat),
    (∀ m, m < n → outcomes m = none) → outcomes n = some e → n < fuel →
    send_heart_beat_loop outcomes fuel = some (e, n) := by
  induction n with
  | zero =>
      intro outcomes e fuel _ hs hf
      cases fuel with
      | zero => omega
      | succ f => simp only [send_heart_beat_loop, hs]
  | succ n ih =>
      intro outcomes e fuel hfail hs hf
      cases fuel with
      | zero => omega
      | succ f =>
          simp only [send_heart_beat_loop, hfail 0 (by omega)]
          rw [ih (fun k => outcomes (k + 1)) e f
            (fun m hm => hfail (m + 1) (by omega)) hs (by omega)]
          rfl

/-- C7: on a heartbeat tick, a failing POST is retried indefinitely after
a fixed backoff (after any number of consecutive network errors the loop
is still retrying, with one sleep per failure and no registration), and
when the POST finally succeeds at attempt `n`, the worker issues exactly
one re-registration call before returning (hence before the next tick)
if the response said `exist = false`, and none if it said
`exist = true`. -/
theorem heartbeat_retry_and_reregistration
    (outcomes : Nat → Option Bool) (n : Nat) (e : Bool) (fuel : Nat)
    (hfail : ∀ m, m < n → outcomes m = none)
    (hsucc : outcomes n = some e) (hfuel : n < fuel) :
    send_heart_beat outcomes fuel =
      ⟨some e, n, if e then 0 else 1⟩ ∧
    (∀ (bad : Nat → Option Bool) (k : Nat), (∀ m, bad m = none) →
      send_heart_beat bad k = ⟨none, k, 0⟩) := by
  constructor
  · unfold send_heart_beat
    rw [send_heart_beat_loop_first_success n outcomes e fuel hfail hsucc hfuel]
  · intro bad k hbad
    unfold send_heart_beat
    rw [send_heart_beat_loop_all_fail k bad hbad]

/-- Witness for `heartbeat_retry_and_reregistration`: two network errors,
then a successful POST answering `exist = false`, produce two backoff
sleeps and exactly one re-registration. -/
theorem heartbeat_retry_and_reregistration_witness :
    send_heart_beat (fun m => if m < 2 then none else some false) 5 =
      ⟨some false, 2, 1⟩ :=
  (heartbeat_retry_and_reregistration
    (fun m => if m < 2 then none else some false) 2 false 5
    (by intro m hm; simp [hm]) (by simp) (by omega)).1

/-- C8: whenever the admission semaphore exists, the reported queue
length equals `limit_model_concurrency` minus the available slots plus
the waiting acquirers, and computing it (and `get_status`, which embeds
it) leaves the worker state unchanged. -/
theorem queue_length_formula (g : WorkerGlobals) (sem : AsyncSemaphore)
    (name : List Char) (h : g.model_semaphore = some sem) :
    (get_queue_length g).1 =
      g.limit_model_concurrency - (sem.value : Int) + (sem.waiters : Int) ∧
    (get_queue_length g).2 = g ∧
    (get_status name g).1.queue_length = (get_queue_length g).1 ∧
    (get_status name g).2 = g := by
  refine ⟨?_, ?_, rfl, ?_⟩ <;> simp [get_queue_length, get_status, h]

/-- Witness for `queue_length_formula`: limit 4, one free slot, two
waiters gives queue length `4 - 1 + 2 = 5` and an unchanged state. -/
theorem queue_length_formula_witness :
    (get_queue_length ⟨4, some ⟨1, 2⟩⟩).1 = 5 ∧
    (get_queue_length ⟨4, some ⟨1, 2⟩⟩).2 = (⟨4, some ⟨1, 2⟩⟩ : WorkerGlobals) := by
  have h := queue_length_formula ⟨4, some ⟨1, 2⟩⟩ ⟨1, 2⟩ [] rfl
  exact ⟨by rw [h.1]; norm_num, h.2.1⟩

/-- C2: a session admitted by the `/worker_generate_stream` endpoint
registers exactly one release task on its response, and when the session
ends — on any exit path: finished stream, error chunk emitted, or client
disconnect — that task runs once, so the semaphore value is restored and
exactly one release is recorded for the one acquire. -/
theorem admission_slot_conserved (s : AdmissionState) (ex : SessionExit)
    (h : 0 < s.semValue) :
    (generate_stream_endpoint s).2 = [BackgroundTask.releaseModelSemaphore] ∧
    (generate_stream_endpoint s).1.semValue = s.semValue - 1 ∧
    (generate_stream_endpoint s).1.acquires = s.acquires + 1 ∧
    (endSession ex (generate_stream_endpoint s).2
        (generate_stream_endpoint s).1).semValue = s.semValue ∧
    (endSession ex (generate_stream_endpoint s).2
        (generate_stream_endpoint s).1).releases = s.releases + 1 ∧
    (endSession ex (generate_stream_endpoint s).2
        (generate_stream_endpoint s).1).acquires = s.acquires + 1 := by
  refine ⟨rfl, rfl, rfl, ?_, rfl, rfl⟩
  simp only [endSession, generate_stream_endpoint, List.foldl_cons, List.foldl_nil,
    runBackgroundTask, release_model_semaphore]
  omega

/-- Witness for `admission_slot_conserved`: from one free slot, a session
that ends in a client disconnect restores the slot with exactly one
release recorded. -/
theorem admission_slot_conserved_witness :
    (endSession SessionExit.clientDisconnected
        (generate_stream_endpoint ⟨1, 0, 0⟩).2
        (generate_stream_endpoint ⟨1, 0, 0⟩).1).semValue = 1 ∧
    (endSession SessionExit.clientDisconnected
        (generate_stream_endpoint ⟨1, 0, 0⟩).2
        (generate_stream_endpoint ⟨1, 0, 0⟩).1).releases = 0 + 1 :=
  ⟨(admission_slot_conserved ⟨1, 0, 0⟩ SessionExit.clientDisconnected (by decide)).2.2.2.1,
   (admission_slot_conserved ⟨1, 0, 0⟩ SessionExit.clientDisconnected (by decide)).2.2.2.2.1⟩

/-- Setting one key leaves lookups of other keys unchanged. -/
theorem tableLookup_tableSet_other (t : List (Nat × SeqGroup)) (k gid : Nat)
    (g : SeqGroup) (h : k ≠ gid) :
    tableLookup (tableSet t k g) gid = tableLookup t gid := by
  induction t with
  | nil => simp [tableSet, tableLookup, h]
  | cons p rest ih =>
      obtain ⟨k0, g0⟩ := p
      by_cases hk : k0 = k
      · subst hk
        simp [tableSet, tableLookup, h]
      · by_cases hg : k0 = gid
        · subst hg
          simp [tableSet, tableLookup, Ne.symm h]
        · simp [tableSet, hk, tableLookup, hg, ih]

/-- Setting a key makes its lookup return the new value. -/
theorem tableLookup_tableSet_same (t : List (Nat × SeqGroup)) (k : Nat)
    (g : SeqGroup) : tableLookup (tableSet t k g) k = some g := by
  induction t with
  | nil => simp [tableSet, tableLookup]
  | cons p rest ih =>
      obtain ⟨k0, g0⟩ := p
      by_cases hk : k0 = k
      · subst hk; simp [tableSet, tableLookup]
      · simp [tableSet, hk, tableLookup, ih]

/-- Unfolding of one fan-out step. -/
theorem server_step_fanout_cons (t : List (Nat × SeqGroup)) (g : SeqGroup)
    (rest : List SeqGroup) :
    server_step_fanout t (g :: rest) =
      server_step_fanout (tableSet t g.group_id g) rest := by
  simp [server_step_fanout]

/-- A step whose updates never mention `gid` cannot create a table entry
for `gid`. -/
theorem fanout_lookup_none (gid : Nat) :
    ∀ (upd : List SeqGroup) (t : List (Nat × SeqGroup)),
    (∀ g ∈ upd, g.group_id ≠ gid) → tableLookup t gid = none →
    tableLookup (server_step_fanout t upd) gid = none := by
  intro upd
  induction upd with
  | nil => intro t _ ht; exact ht
  | cons g rest ih =>
      intro t hne ht
      rw [server_step_fanout_cons]
      refine ih _ (fun x hx => hne x (List.mem_cons_of_mem _ hx)) ?_
      rw [tableLookup_tableSet_other t g.group_id gid g
        (hne g (List.mem_cons_self g rest))]
      exact ht

/-- Fan-out never deletes: an existing entry survives any step. -/
theorem fanout_lookup_isSome_mono (gid : Nat) :
    ∀ (upd : List SeqGroup) (t : List (Nat × SeqGroup)),
    (tableLookup t gid).isSome = true →
    (tableLookup (server_step_fanout t upd) gid).isSome = true := by
  intro upd
  induction upd with
  | nil => intro t h; exact h
  | cons g rest ih =>
      intro t h
      rw [server_step_fanout_cons]
      apply ih
      by_cases hk : g.group_id = gid
      · subst hk; rw [tableLookup_tableSet_same]; rfl
      · rw [tableLookup_tableSet_other _ _ _ _ hk]; exact h

/-- A step reporting `gid` among its updates creates (or refreshes) the
entry for `gid`. -/
theorem fanout_lookup_isSome_of_mem (gid : Nat) :
    ∀ (upd : List SeqGroup) (t : List (Nat × SeqGroup)),
    (∃ g ∈ upd, g.group_id = gid) →
    (tableLookup (server_step_fanout t upd) gid).isSome = true := by
  intro upd
  induction upd with
  | nil =>
      intro t h
      obtain ⟨g, hg, _⟩ := h
      exact absurd hg (List.not_mem_nil g)
  | cons g rest ih =>
      intro t h
      rw [server_step_fanout_cons]
      obtain ⟨g', hg', hgid⟩ := h
      rcases List.mem_cons.mp hg' with hh | hh
      · subst hh
        apply fanout_lookup_isSome_mono gid rest
        have hs : tableLookup (tableSet t g'.group_id g') gid = some g' := by
          rw [← hgid]; exact tableLookup_tableSet_same t g'.group_id g'
        rw [hs]; rfl
      · exact ih _ ⟨g', hh, hgid⟩

/-- C10: the read of the session's group inside the polling loop is an
unguarded dict lookup: if neither the initial table nor the most recent
step's fanned-out updates carry this group id, the loop raises `KeyError`
at the lookup instead of returning a last-known state (no chunk is
emitted); and whenever a completed step did report the group id, the
lookup succeeds with a group. -/
theorem unguarded_group_lookup
    (decode : List Nat → List Char) (stop : Option (List Char)) (gid : Nat)
    (upd : List SeqGroup) (rest : List (List SeqGroup))
    (t0 : List (Nat × SeqGroup))
    (hmiss : tableLookup t0 gid = none)
    (hnot : ∀ g ∈ upd, g.group_id ≠ gid) :
    tableLookup (server_step_fanout t0 upd) gid = none ∧
    generation_loop decode stop gid (upd :: rest) t0 =
      .keyError [] (server_step_fanout t0 upd) ∧
    ∀ upd2 : List SeqGroup, (∃ g ∈ upd2, g.group_id = gid) →
      (tableLookup (server_step_fanout t0 upd2) gid).isSome = true := by
  have hn := fanout_lookup_none gid upd t0 hnot hmiss
  refine ⟨hn, ?_, ?_⟩
  · simp only [generation_loop, hn]
  · intro upd2 h2
    exact fanout_lookup_isSome_of_mem gid upd2 t0 h2

/-- Witness for `unguarded_group_lookup`: with an empty initial table and
a first step that only reports group 3, the lookup for group 7 raises
`KeyError` on the first iteration. -/
theorem unguarded_group_lookup_witness :
    generation_loop (fun _ => []) none 7 [[⟨3, [], false⟩]] [] =
      .keyError [] (server_step_fanout [] [⟨3, [], false⟩]) :=
  (unguarded_group_lookup (fun _ => []) none 7 [⟨3, [], false⟩] [] []
    (by decide) (by decide)).2.1

/-- C9 counterexample: the worker does NOT drop its reference to a
finished group. A session whose group (id 7) is reported finished by the
first step terminates, yet the tracked-groups table still retains the
entry for id 7: nothing in `generate_stream` or `server_step` ever
deletes from `running_seq_groups`. -/
theorem tracked_group_retained_counterexample :
    generation_loop (fun _ => []) none 7 [[⟨7, [1, 2], true⟩]] [] =
      .finishedAt [⟨[], 0⟩] [(7, ⟨7, [1, 2], true⟩)] ∧
    ¬ tableLookup (generation_loop (fun _ => []) none 7
        [[⟨7, [1, 2], true⟩]] []).table 7 = none :=
  ⟨by decide, by decide⟩

/-- C9 (amended): when a session observes its group as finished and
terminates, the tracked-groups table STILL retains an entry for that
group id — the reference is kept, not dropped; only the loop's local
variable goes away. -/
theorem tracked_group_retained
    (decode : List Nat → List Char) (stop : Option (List Char)) (gid : Nat) :
    ∀ (script : List (List SeqGroup)) (t0 : List (Nat × SeqGroup))
      (cs : List Chunk) (t : List (Nat × SeqGroup)),
    generation_loop decode stop gid script t0 = .finishedAt cs t →
    ∃ g, tableLookup t gid = some g ∧ g.finished = true := by
  intro script
  induction script with
  | nil =>
      intro t0 cs t h
      simp [generation_loop] at h
  | cons upd rest ih =>
      intro t0 cs t h
      cases hl : tableLookup (server_step_fanout t0 upd) gid with
      | none => simp [generation_loop, hl] at h
      | some g =>
          cases hf : g.finished with
          | true =>
              simp [generation_loop, hl, hf] at h
              exact ⟨g, h.2 ▸ hl, hf⟩
          | false =>
              simp only [generation_loop, hl, hf] at h
              cases hrec : generation_loop decode stop gid rest
                  (server_step_fanout t0 upd) with
              | finishedAt cs2 t2 =>
                  rw [hrec] at h
                  simp at h
                  exact h.2 ▸ ih (server_step_fanout t0 upd) cs2 t2 hrec
              | keyError cs2 t2 => rw [hrec] at h; simp at h
              | outOfScript cs2 t2 => rw [hrec] at h; simp at h

/-- Witness for `tracked_group_retained`: the finished run of the C9
counterexample still has a (finished) entry for group 7. -/
theorem tracked_group_retained_witness :
    ∃ g, tableLookup [(7, ⟨7, [1, 2], true⟩)] 7 = some g ∧ g.finished = true :=
  tracked_group_retained (fun _ => []) none 7 [[⟨7, [1, 2], true⟩]] []
    [⟨[], 0⟩] [(7, ⟨7, [1, 2], true⟩)] (by decide)

/-- C1 counterexample: the flag-based discipline does not guarantee
at most one step executing process-wide. In the interleaving where both
sessions evaluate `if not self.is_server_running` before either has set
the flag inside `server_step`, both enter `self.server.step()`:
after the schedule check0, check1, enter0, enter1 two steps are
executing simultaneously, refuting the at-most-one claim. -/
theorem single_flight_counterexample :
    (schedule [false, true, false, true] initTwoSessions).driver.stepsExecuting
      = 2 ∧
    ¬ ∀ tr : List Bool,
        (schedule tr initTwoSessions).driver.stepsExecuting ≤ 1 :=
  ⟨by decide, fun hall => absurd (hall [false, true, false, true]) (by decide)⟩

/-- One session-0 action preserves the single-session invariant. -/
theorem seqInv_step0 (s : TwoSessions) (h : seqInv s) : seqInv (stepSession0 s) := by
  obtain ⟨hpc1, hcase⟩ := h
  rcases hcase with ⟨h0, h1, h2⟩ | ⟨h0, h1, h2⟩
  · refine ⟨hpc1, Or.inr ?_⟩
    simp [stepSession0, sessionAction, h0, h1, h2]
  · cases hpc0 : s.pc0 with
    | atCheck =>
        refine ⟨hpc1, Or.inr ?_⟩
        simp [stepSession0, sessionAction, hpc0, h1, h2]
    | atEnter =>
        refine ⟨hpc1, Or.inl ?_⟩
        simp [stepSession0, sessionAction, hpc0, h1]
    | inStep => exact absurd hpc0 h0
    | done =>
        refine ⟨hpc1, Or.inr ?_⟩
        simp [stepSession0, sessionAction, hpc0, h1, h2]

/-- The single-session invariant is preserved by any schedule that only
ever runs session 0. -/
theorem seqInv_schedule_seq :
    ∀ (tr : List Bool) (s : TwoSessions), (∀ b ∈ tr, b = false) → seqInv s →
    seqInv (schedule tr s) := by
  intro tr
  induction tr with
  | nil => intro s _ h; exact h
  | cons b rest ih =>
      intro s hb h
      have hb0 : b = false := hb b (List.mem_cons_self b rest)
      subst hb0
      exact ih (stepSession0 s) (fun x hx => hb x (List.mem_cons_of_mem _ hx))
        (seqInv_step0 s h)

/-- C1 (amended): a session that observes a step in flight
(`is_server_running` true at its check) starts no second step — it skips
`server_step()` unchanged and proceeds to read the fanned-out result of
the in-flight step; and in any execution without interleaving between
the flag check and the step (here: only one session is ever scheduled),
at most one step executes at any time. The process-wide guarantee under
arbitrary interleaving does not hold, since the check and the flag set
are not atomic. -/
theorem single_flight_amended :
    (∀ d : DriverState, d.is_server_running = true →
       sessionAction d SessionPc.atCheck = (d, SessionPc.done)) ∧
    (∀ tr : List Bool, (∀ b ∈ tr, b = false) →
       (schedule tr initTwoSessions).driver.stepsExecuting ≤ 1) := by
  constructor
  · intro d hd
    simp [sessionAction, hd]
  · intro tr htr
    have hinv : seqInv initTwoSessions := ⟨rfl, Or.inr ⟨by decide, rfl, rfl⟩⟩
    obtain ⟨-, hcase⟩ := seqInv_schedule_seq tr initTwoSessions htr hinv
    rcases hcase with ⟨-, h1, -⟩ | ⟨-, h1, -⟩ <;> omega

/-- Witness for `single_flight_amended`: a session observing the flag
set skips the step, and a three-action solo run keeps at most one step
in flight. -/
theorem single_flight_amended_witness :
    sessionAction ⟨true, 1, 1⟩ SessionPc.atCheck = (⟨true, 1, 1⟩, SessionPc.done) ∧
    (schedule [false, false, false] initTwoSessions).driver.stepsExecuting ≤ 1 :=
  ⟨single_flight_amended.1 ⟨true, 1, 1⟩ rfl,
   single_flight_amended.2 [false, false, false] (by decide)⟩
